import Mathlib

/-!
Shallow embedding of the aw-core storage layer (aw_datastore/storages):
the peewee (relational, `PeeweeStorage`) and MongoDB (document store,
`MongoDBStorage`) backends.  Instants and durations are modelled as
integer numbers of seconds (all timestamps are normalized to UTC by the
code, so an instant is an absolute point on one axis); the opaque JSON
`data` payload is modelled as a `String` (the relational backend stores
`json.dumps(event.data)` and reads it back with `json.loads`, a round
trip, so `dumps`/`loads` are modelled as the identity).
-/

namespace AwCore

/-- Modelled from the spec: the event shape of aw_core.models.Event (the
aw_core package is not part of this repository): an optional
backend-assigned `id` (absent means not yet persisted), a UTC instant
`timestamp`, a `duration` in seconds, and an opaque `data` payload.
MongoDB string ids (`str(ObjectId)`) are identified with the numeric id
that generated them. -/
structure Event where
  id : Option Nat
  timestamp : Int
  duration : Int
  data : String
deriving Repr, DecidableEq

/-- A row of the relational `events` table (`EventModel` in peewee.py):
an `AutoField` primary key `id`, the owning bucket key (foreign key into
`buckets`), a timestamp, a duration (stored as an interval of that many
seconds) and `datastr = json.dumps(data)`. -/
structure PRow where
  id : Nat
  bucket : Nat
  timestamp : Int
  duration : Int
  datastr : String
deriving Repr, DecidableEq

/-- State of the relational `events` table: the rows plus the next value
of the `AutoField` id sequence. -/
structure PState where
  rows : List PRow
  nextId : Nat
deriving Repr, DecidableEq

/-- A document of a MongoDB per-bucket `events` collection: the
backend-assigned `_id` (an ObjectId, modelled as a Nat) plus the event
fields (duration stored as `total_seconds()`). -/
structure MDoc where
  oid : Nat
  timestamp : Int
  duration : Int
  data : String
deriving Repr, DecidableEq

/-- State of one MongoDB bucket events collection: the documents plus
the next ObjectId to be assigned. -/
structure MState where
  docs : List MDoc
  nextOid : Nat
deriving Repr, DecidableEq

/-! Sorting by descending timestamp.  Both backends order query results
by `timestamp` descending (`order_by(EventModel.timestamp.desc())`,
`.sort([("timestamp", -1)])`); we model this with a stable insertion
sort on a key function. -/

/-- Insert an element into a list already sorted by strictly descending
key, keeping it after all elements with a greater-or-equal position. -/
def insertDescBy {α : Type} (key : α → Int) (e : α) : List α → List α
  | [] => [e]
  | x :: xs => if key x > key e then x :: insertDescBy key e xs else e :: x :: xs

/-- Stable sort by descending key. -/
def sortDescBy {α : Type} (key : α → Int) : List α → List α
  | [] => []
  | x :: xs => insertDescBy key x (sortDescBy key xs)

/-! The relational backend (PeeweeStorage). -/

/-- PeeweeStorage._where_range as a row predicate: with a start bound it
requires `starttime - timedelta(hours=24) <= timestamp` (the "faster
WHERE" speedup, assuming events are not longer than 24 hours) and
`starttime <= timestamp + duration`; with an end bound it requires
`timestamp <= endtime`.  Bound normalization to UTC is the identity in
this model. -/
def peeweeWhereRange (starttime endtime : Option Int) (r : PRow) : Bool :=
  (match starttime with
   | some s => decide (s - 86400 ≤ r.timestamp) && decide (s ≤ r.timestamp + r.duration)
   | none => true)
  && (match endtime with
      | some e => decide (r.timestamp ≤ e)
      | none => true)

/-- EventModel.json followed by Event(**...): a row viewed as an Event
(datastr parsed back into the payload). -/
def rowToEvent (r : PRow) : Event :=
  { id := some r.id, timestamp := r.timestamp, duration := r.duration, data := r.datastr }

/-- The trimming loop at the end of PeeweeStorage.get_events: clip a
returned event to the requested range, leaving data untouched. -/
def clipEvent (starttime endtime : Option Int) (ev : Event) : Event :=
  let ev :=
    match starttime with
    | some s =>
        if ev.timestamp < s then
          { ev with timestamp := s, duration := ev.timestamp + ev.duration - s }
        else ev
    | none => ev
  match endtime with
  | some e =>
      if ev.timestamp + ev.duration > e then { ev with duration := e - ev.timestamp } else ev
  | none => ev

/-- PeeweeStorage.get_events: returns [] when limit == 0; otherwise
selects the rows of the bucket satisfying _where_range, orders by
timestamp descending, applies LIMIT when limit > 0, converts rows to
events, and finally trims each event to the requested range. -/
def peeweeGetEvents (bkey : Nat) (limit : Int) (starttime endtime : Option Int)
    (st : PState) : List Event :=
  if limit = 0 then []
  else
    let sel := st.rows.filter fun r => r.bucket == bkey && peeweeWhereRange starttime endtime r
    let ordered := sortDescBy (fun r => r.timestamp) sel
    let limited := if limit > 0 then ordered.take limit.toNat else ordered
    (limited.map rowToEvent).map (clipEvent starttime endtime)

/-- PeeweeStorage.get_eventcount: count of the rows of the bucket
satisfying _where_range. -/
def peeweeGetEventcount (bkey : Nat) (starttime endtime : Option Int) (st : PState) : Nat :=
  (st.rows.filter fun r => r.bucket == bkey && peeweeWhereRange starttime endtime r).length

/-! The document-store backend (MongoDBStorage). -/

/-- The query_filter built by MongoDBStorage.get_events and
get_eventcount: `timestamp >= starttime` when a start bound is given and
`timestamp <= endtime` when an end bound is given (note: plain timestamp
comparison, not an interval-overlap test, and independent of duration). -/
def mongoQueryFilter (starttime endtime : Option Int) (d : MDoc) : Bool :=
  (match starttime with
   | some s => decide (s ≤ d.timestamp)
   | none => true)
  && (match endtime with
      | some e => decide (d.timestamp ≤ e)
      | none => true)

/-- The read-back of a MongoDB event document: `_id` popped into `id`
(as a string, identified here with the generating Nat), the timestamp
re-tagged as UTC (identity in this model), no change to duration or
data. -/
def docToEvent (d : MDoc) : Event :=
  { id := some d.oid, timestamp := d.timestamp, duration := d.duration, data := d.data }

/-- MongoDBStorage.get_events: returns [] when limit == 0; a negative
limit is replaced by 10^9; then find(query_filter), sort by timestamp
descending, limit, and conversion to events.  No trimming is applied. -/
def mongoGetEvents (limit : Int) (starttime endtime : Option Int) (st : MState) : List Event :=
  if limit = 0 then []
  else
    let lim : Nat := if limit < 0 then 10 ^ 9 else limit.toNat
    let sel := st.docs.filter (mongoQueryFilter starttime endtime)
    ((sortDescBy (fun d => d.timestamp) sel).take lim).map docToEvent

/-- MongoDBStorage.get_eventcount: count of the documents matching
query_filter. -/
def mongoGetEventcount (starttime endtime : Option Int) (st : MState) : Nat :=
  (st.docs.filter (mongoQueryFilter starttime endtime)).length

/-! The overlap test as the spec states it (section 4.1 Time Model):
an event overlaps the query range iff `event.timestamp <= end` (when
end is given) and `event.timestamp + event.duration >= start` (when
start is given); with both bounds omitted it always overlaps.  This
definition follows the words of the spec, for comparison with the two
backend filters. -/
def specOverlaps (starttime endtime : Option Int) (ts dur : Int) : Bool :=
  (match endtime with
   | some e => decide (ts ≤ e)
   | none => true)
  && (match starttime with
      | some s => decide (s ≤ ts + dur)
      | none => true)

/-- Projection of an event to the fields the backend-equivalence claim
compares: timestamp, duration and data (ids are backend-specific). -/
def evProj (ev : Event) : Int × Int × String :=
  (ev.timestamp, ev.duration, ev.data)

/-! Relational write path. -/

/-- PeeweeStorage.insert_one: EventModel.from_event builds a model
instance carrying the (possibly absent) event id; e.save() performs an
INSERT assigning the next AutoField id when the primary key is unset,
and an UPDATE of the non-pk assigned fields (bucket, timestamp,
duration, datastr) at that primary key when it is set, touching no row
when the key matches none (peewee Model.save semantics).  The event is
returned with its id filled in. -/
def peeweeInsertOne (bkey : Nat) (ev : Event) (st : PState) : PState × Event :=
  match ev.id with
  | some i =>
      ({ st with rows := st.rows.map fun r =>
          if r.id == i then
            { r with bucket := bkey, timestamp := ev.timestamp,
                     duration := ev.duration, datastr := ev.data }
          else r },
       ev)
  | none =>
      ({ rows := st.rows ++ [⟨st.nextId, bkey, ev.timestamp, ev.duration, ev.data⟩],
         nextId := st.nextId + 1 },
       { ev with id := some st.nextId })

/-- The chunks helper of peewee.py: successive n-sized chunks of a list
(the code only calls it with n = 100; the n = 0 branch here is a
modelling artifact, never exercised). -/
def chunks {α : Type} (n : Nat) (l : List α) : List (List α) :=
  if h : 0 < n ∧ 0 < l.length then
    l.take n :: chunks n (l.drop n)
  else if l.length = 0 then [] else [l]
termination_by l.length
decreasing_by
  simp only [List.length_drop]
  omega

/-- One EventModel.insert_many(chunk).execute() call: the rows of the
chunk are inserted in order, each receiving the next AutoField id. -/
def peeweeInsertChunk (bkey : Nat) (chunk : List Event) (st : PState) : PState :=
  chunk.foldl
    (fun s e =>
      { rows := s.rows ++ [⟨s.nextId, bkey, e.timestamp, e.duration, e.data⟩],
        nextId := s.nextId + 1 })
    st

/-- PeeweeStorage.insert_many: events that carry an id are applied one
by one through insert_one (the update path); events without an id are
bulk-inserted in chunks of 100. -/
def peeweeInsertMany (bkey : Nat) (events : List Event) (st : PState) : PState :=
  let afterUpdates :=
    (events.filter fun e => e.id.isSome).foldl (fun s e => (peeweeInsertOne bkey e s).1) st
  (chunks 100 (events.filter fun e => e.id.isNone)).foldl
    (fun s c => peeweeInsertChunk bkey c s) afterUpdates

/-- PeeweeStorage._get_event: first row with the given id in the given
bucket, none when absent. -/
def peeweeFindRow (bkey : Nat) (eventId : Nat) (st : PState) : Option PRow :=
  st.rows.find? fun r => r.id == eventId && r.bucket == bkey

/-- PeeweeStorage.get_event: the found row as an Event, none when
absent. -/
def peeweeGetEvent (bkey : Nat) (eventId : Nat) (st : PState) : Option Event :=
  (peeweeFindRow bkey eventId st).map rowToEvent

/-- The effect of the attribute assignments plus e.save() in
PeeweeStorage.replace and replace_last: the row keeps its id (primary
key) and bucket, and takes the new timestamp, duration and datastr. -/
def overwriteRow (ev : Event) (r : PRow) : PRow :=
  { r with timestamp := ev.timestamp, duration := ev.duration, datastr := ev.data }

/-- The effect of replace_one in MongoDBStorage.replace and
replace_last: the document keeps its _id and takes the fields of the
transformed new event. -/
def overwriteDoc (ev : Event) (d : MDoc) : MDoc :=
  { oid := d.oid, timestamp := ev.timestamp, duration := ev.duration, data := ev.data }

/-- PeeweeStorage._get_last: the first row of the bucket under
descending-timestamp order; none models the DoesNotExist exception of
.get() on an empty bucket. -/
def peeweeGetLast (bkey : Nat) (st : PState) : Option PRow :=
  (sortDescBy (fun r => r.timestamp) (st.rows.filter fun r => r.bucket == bkey)).head?

/-- PeeweeStorage.replace_last: fetch the last row, overwrite its
timestamp, duration and datastr (e.save() updates those fields at the
unchanged primary key), and return the event with that id; none models
the DoesNotExist exception when the bucket is empty. -/
def peeweeReplaceLast (bkey : Nat) (ev : Event) (st : PState) : Option (PState × Event) :=
  match peeweeGetLast bkey st with
  | none => none
  | some last =>
      some
        ({ st with rows := st.rows.map fun r =>
            if r.id == last.id then overwriteRow ev r else r },
         { ev with id := some last.id })

/-- PeeweeStorage.replace: fetch the row by id within the bucket and
overwrite its timestamp, duration and datastr at the unchanged primary
key; none models the AttributeError raised by the attribute assignments
when _get_event returned None (nothing is written in that case). -/
def peeweeReplace (bkey : Nat) (eventId : Nat) (ev : Event) (st : PState) :
    Option (PState × Event) :=
  match peeweeFindRow bkey eventId st with
  | none => none
  | some e =>
      some
        ({ st with rows := st.rows.map fun r =>
            if r.id == e.id then overwriteRow ev r else r },
         { ev with id := some e.id })

/-- PeeweeStorage.delete: DELETE WHERE id AND bucket; returns the
number of rows removed (a falsy 0 when nothing matched, no error). -/
def peeweeDelete (bkey : Nat) (eventId : Nat) (st : PState) : PState × Nat :=
  (({ st with rows := st.rows.filter fun r => !(r.id == eventId && r.bucket == bkey) }),
   (st.rows.filter fun r => r.id == eventId && r.bucket == bkey).length)

/-! Document-store write path. -/

/-- MongoDBStorage.insert_one: the copied, transformed event dict is
inserted as a new document receiving a fresh ObjectId, and the event is
returned with that id. -/
def mongoInsertOne (ev : Event) (st : MState) : MState × Event :=
  ({ docs := st.docs ++ [⟨st.nextOid, ev.timestamp, ev.duration, ev.data⟩],
     nextOid := st.nextOid + 1 },
   { ev with id := some st.nextOid })

/-- MongoDBStorage.insert_many: every event of the list, with or
without an id, is inserted as a new document with a fresh ObjectId (no
routing through an update path). -/
def mongoInsertMany (events : List Event) (st : MState) : MState :=
  events.foldl
    (fun s e =>
      { docs := s.docs ++ [⟨s.nextOid, e.timestamp, e.duration, e.data⟩],
        nextOid := s.nextOid + 1 })
    st

/-- MongoDBStorage.get_event: find_one by _id, none when absent. -/
def mongoGetEvent (eventId : Nat) (st : MState) : Option Event :=
  (st.docs.find? fun d => d.oid == eventId).map docToEvent

/-- MongoDBStorage.delete: delete_one by _id removes the first matching
document; returns whether deleted_count >= 1. -/
def mongoDelete (eventId : Nat) (st : MState) : MState × Bool :=
  if st.docs.any (fun d => d.oid == eventId) then
    ({ st with docs := st.docs.eraseP fun d => d.oid == eventId }, true)
  else (st, false)

/-- MongoDBStorage.replace_last: take the first document under
descending-timestamp order and replace_one it by the transformed new
event (replace_one keeps the existing _id); none models the IndexError
of [0] on an empty collection. -/
def mongoReplaceLast (ev : Event) (st : MState) : Option MState :=
  match (sortDescBy (fun d => d.timestamp) st.docs).head? with
  | none => none
  | some last =>
      some
        { st with docs := st.docs.map fun d =>
            if d.oid == last.oid then overwriteDoc ev d else d }

/-- MongoDBStorage.replace: replace_one by _id (the matching document,
when one exists, is replaced with the new fields, _id kept; with no
match nothing happens and no error is raised), then returns True
unconditionally. -/
def mongoReplace (eventId : Nat) (ev : Event) (st : MState) : MState × Bool :=
  ({ st with docs := st.docs.map fun d =>
      if d.oid == eventId then overwriteDoc ev d else d },
   true)

/-! User records (save_user on both backends). -/

/-- The user_data mapping passed to save_user, with the fields the
peewee backend persists. -/
structure UserData where
  device_id : String
  name : String
  email : String
  access_token : String
  refresh_token : String
deriving Repr, DecidableEq

/-- A row of the relational users table (UserModel): AutoField id, the
UserData fields (email carries a unique index) and last_used_at. -/
structure PUser where
  id : Nat
  device_id : String
  name : String
  email : String
  access_token : String
  refresh_token : String
  last_used_at : Option Int
deriving Repr, DecidableEq

/-- State of the relational users table. -/
structure PUserState where
  users : List PUser
  nextId : Nat
deriving Repr, DecidableEq

/-- PeeweeStorage.save_user: DELETE all users WHERE email equals the
given email, then CREATE a fresh row from user_data with last_used_at
set to the current UTC time. -/
def peeweeSaveUser (u : UserData) (now : Int) (st : PUserState) : PUserState :=
  let kept := st.users.filter fun r => !(r.email == u.email)
  { users := kept ++ [⟨st.nextId, u.device_id, u.name, u.email,
                       u.access_token, u.refresh_token, some now⟩],
    nextId := st.nextId + 1 }

/-- A document of the MongoDB users collection: the assigned _id and
the user_data fields. -/
structure MUser where
  oid : Nat
  device_id : String
  name : String
  email : String
  access_token : String
  refresh_token : String
deriving Repr, DecidableEq

/-- State of the MongoDB users collection. -/
structure MUserState where
  users : List MUser
  nextOid : Nat
deriving Repr, DecidableEq

/-- MongoDBStorage.save_user: delete_many of all documents with the
given email, then insert_one of user_data. -/
def mongoSaveUser (u : UserData) (st : MUserState) : MUserState :=
  let kept := st.users.filter fun r => !(r.email == u.email)
  { users := kept ++ [⟨st.nextOid, u.device_id, u.name, u.email,
                       u.access_token, u.refresh_token⟩],
    nextOid := st.nextOid + 1 }

/-! Bucket directory listing and its cache. -/

/-- Bucket metadata as served by get_metadata. -/
structure BucketMeta where
  name : String
  type : String
  client : String
  hostname : String
  created : String
deriving Repr, DecidableEq

/-- The cache fields of MongoDBStorage: cached_buckets (None until the
first rebuild) and last_cached_ms (0 initially, set with time.time()
on refresh). -/
structure MongoCache where
  cached_buckets : Option (List (String × BucketMeta))
  last_cached_ms : Int
deriving Repr, DecidableEq

/-- MongoDBStorage.buckets: when time.time() - last_cached_ms < 6000
the cached snapshot is returned as-is and the state is untouched;
otherwise the bucket map is re-enumerated from the backend (modelled as
the id-to-metadata list of the buckets whose metadata is readable),
stored in the cache, and last_cached_ms is set to the current time. -/
def mongoBuckets (now : Int) (backend : List (String × BucketMeta)) (c : MongoCache) :
    Option (List (String × BucketMeta)) × MongoCache :=
  if now - c.last_cached_ms < 6000 then (c.cached_buckets, c)
  else (some backend, { cached_buckets := some backend, last_cached_ms := now })

/-- The cache fields of PeeweeStorage: cached_buckets and
last_cached_ms are created in the constructor but the caching code in
buckets() is commented out and never touches them. -/
structure PeeweeCache where
  cached_buckets : Option (List (String × BucketMeta))
  last_cached_ms : Int
deriving Repr, DecidableEq

/-- PeeweeStorage.buckets: always re-enumerates the bucket map from the
backend (BucketModel.select()); the cache fields are neither consulted
nor updated, whatever the current time is. -/
def peeweeBuckets (backend : List (String × BucketMeta)) (c : PeeweeCache) :
    List (String × BucketMeta) × PeeweeCache :=
  (backend, c)

/-! Amended selection predicates (stated from the amended wording of the
range-selection claim, for comparison with the backend filters). -/

/-- Amended selection on the relational backend: the spec overlap test
strengthened, when a start bound is given, by the extra requirement
timestamp >= start - 24h. -/
def amendedPeeweeSelect (starttime endtime : Option Int) (ts dur : Int) : Bool :=
  specOverlaps starttime endtime ts dur
  && (match starttime with
      | some s => decide (s - 86400 ≤ ts)
      | none => true)

/-- Amended selection on the document-store backend: start <= timestamp
when a start bound is given and timestamp <= end when an end bound is
given (the duration plays no part). -/
def amendedMongoSelect (starttime endtime : Option Int) (ts : Int) : Bool :=
  (match starttime with
   | some s => decide (s ≤ ts)
   | none => true)
  && (match endtime with
      | some e => decide (ts ≤ e)
      | none => true)

/-! General lemmas about the descending sort. -/

theorem mem_insertDescBy {α : Type} (key : α → Int) (e : α) (l : List α) (a : α) :
    a ∈ insertDescBy key e l ↔ a = e ∨ a ∈ l := by
  induction l with
  | nil => simp [insertDescBy]
  | cons x xs ih =>
      simp only [insertDescBy]
      split
      · simp only [List.mem_cons, ih]
        tauto
      · simp only [List.mem_cons]

theorem mem_sortDescBy {α : Type} (key : α → Int) (l : List α) (a : α) :
    a ∈ sortDescBy key l ↔ a ∈ l := by
  induction l with
  | nil => simp [sortDescBy]
  | cons x xs ih => simp [sortDescBy, mem_insertDescBy, ih]

theorem length_insertDescBy {α : Type} (key : α → Int) (e : α) (l : List α) :
    (insertDescBy key e l).length = l.length + 1 := by
  induction l with
  | nil => rfl
  | cons x xs ih =>
      simp only [insertDescBy]
      split
      · simp [ih]
      · simp

theorem length_sortDescBy {α : Type} (key : α → Int) (l : List α) :
    (sortDescBy key l).length = l.length := by
  induction l with
  | nil => rfl
  | cons x xs ih => simp [sortDescBy, length_insertDescBy, ih]

theorem pairwise_insertDescBy {α : Type} (key : α → Int) (e : α) (l : List α)
    (h : l.Pairwise fun a b => key b ≤ key a) :
    (insertDescBy key e l).Pairwise fun a b => key b ≤ key a := by
  induction l with
  | nil => simp [insertDescBy]
  | cons x xs ih =>
      rcases List.pairwise_cons.mp h with ⟨hx, hxs⟩
      simp only [insertDescBy]
      split
      · rename_i hgt
        refine List.pairwise_cons.mpr ⟨?_, ih hxs⟩
        intro b hb
        rcases (mem_insertDescBy key e xs b).mp hb with rfl | hbmem
        · omega
        · exact hx b hbmem
      · rename_i hle
        refine List.pairwise_cons.mpr ⟨?_, h⟩
        intro b hb
        rcases List.mem_cons.mp hb with rfl | hbmem
        · omega
        · have := hx b hbmem
          omega

theorem pairwise_sortDescBy {α : Type} (key : α → Int) (l : List α) :
    (sortDescBy key l).Pairwise fun a b => key b ≤ key a := by
  induction l with
  | nil => simp [sortDescBy]
  | cons x xs ih => exact pairwise_insertDescBy key x _ ih

theorem key_le_of_head?_sortDescBy {α : Type} (key : α → Int) (l : List α) (a x : α)
    (hx : x ∈ l) (hh : (sortDescBy key l).head? = some a) : key x ≤ key a := by
  have hmem : x ∈ sortDescBy key l := (mem_sortDescBy key l x).mpr hx
  have hp := pairwise_sortDescBy key l
  cases hsl : sortDescBy key l with
  | nil => rw [hsl] at hh; cases hh
  | cons b bs =>
      rw [hsl] at hh hmem hp
      have hab : a = b := by
        simpa using hh.symm
      subst hab
      rcases List.mem_cons.mp hmem with rfl | hxs
      · exact le_refl _
      · exact (List.pairwise_cons.mp hp).1 x hxs

theorem mem_of_head?_sortDescBy {α : Type} (key : α → Int) (l : List α) (a : α)
    (hh : (sortDescBy key l).head? = some a) : a ∈ l := by
  have : a ∈ sortDescBy key l := by
    cases hsl : sortDescBy key l with
    | nil => rw [hsl] at hh; cases hh
    | cons b bs =>
        rw [hsl] at hh
        have hab : a = b := by simpa using hh.symm
        simp [hab]
  exact (mem_sortDescBy key l a).mp this

/-! Pointwise characterizations of the two range filters. -/

theorem peeweeWhereRange_eq_amended (starttime endtime : Option Int) (r : PRow) :
    peeweeWhereRange starttime endtime r =
      amendedPeeweeSelect starttime endtime r.timestamp r.duration := by
  cases starttime <;> cases endtime <;>
    · rw [Bool.eq_iff_iff]
      simp only [peeweeWhereRange, amendedPeeweeSelect, specOverlaps, Bool.and_eq_true,
        decide_eq_true_eq, Bool.and_true, Bool.true_and]
      try tauto

theorem mongoQueryFilter_eq_amended (starttime endtime : Option Int) (d : MDoc) :
    mongoQueryFilter starttime endtime d =
      amendedMongoSelect starttime endtime d.timestamp := by
  rfl

/-- C1: the claim that get_range on the relational backend and on the
document-store backend return the same sequence of timestamp, duration
and data triples fails on the code.  On a bucket holding the single
event (timestamp 100, duration 10), the query start = 105, end = 150,
limit = -1 returns the clipped event (105, 5) on the relational backend
but the empty list on the document store (whose filter requires
timestamp >= start and which never clips). -/
theorem C1_backends_disagree :
    (peeweeGetEvents 1 (-1) (some 105) (some 150)
        { rows := [⟨1, 1, 100, 10, "d"⟩], nextId := 2 }).map evProj = [(105, 5, "d")] ∧
    mongoGetEvents (-1) (some 105) (some 150)
        { docs := [⟨1, 100, 10, "d"⟩], nextOid := 2 } = [] := by
  decide

/-- C2: counterexample to the claim that both backends select an event
iff it overlaps the query range.  The event (timestamp 100, duration
10) overlaps the range with start = 105 (since 100 + 10 >= 105), yet
the document-store backend selects nothing: get_events returns [] and
get_eventcount returns 0, because its filter demands timestamp >=
start. -/
theorem C2_overlap_claim_false :
    specOverlaps (some 105) none 100 10 = true ∧
    mongoGetEvents (-1) (some 105) none { docs := [⟨1, 100, 10, "x"⟩], nextOid := 2 } = [] ∧
    mongoGetEventcount (some 105) none { docs := [⟨1, 100, 10, "x"⟩], nextOid := 2 } = 0 := by
  decide

/-- C2 (amended): the relational backend selects a stored event iff it
satisfies the spec overlap test and additionally, when a start bound is
given, timestamp >= start - 24h; the document-store backend selects a
stored event iff start <= timestamp (when given) and timestamp <= end
(when given); with both bounds omitted every event is selected.  Stated
for get_eventcount on both backends, together with the fact that
get_range with an unbounded limit returns exactly one (clipped) event
per selected row on the relational backend. -/
theorem C2_amended_selection (starttime endtime : Option Int) (bkey : Nat)
    (pst : PState) (mst : MState) :
    peeweeGetEventcount bkey starttime endtime pst =
      (pst.rows.filter fun r =>
        r.bucket == bkey && amendedPeeweeSelect starttime endtime r.timestamp r.duration).length ∧
    (peeweeGetEvents bkey (-1) starttime endtime pst).length =
      peeweeGetEventcount bkey starttime endtime pst ∧
    mongoGetEventcount starttime endtime mst =
      (mst.docs.filter fun d => amendedMongoSelect starttime endtime d.timestamp).length := by
  refine ⟨?_, ?_, ?_⟩
  · unfold peeweeGetEventcount
    congr 1
    apply List.filter_congr
    intro r _
    rw [peeweeWhereRange_eq_amended]
  · unfold peeweeGetEvents peeweeGetEventcount
    simp [length_sortDescBy]
  · rfl

/-- C3: the code does not clip on the document store, contradicting the
trimming comment of peewee.get_events (TODO: Do the same for the other
storage methods).  On the bucket holding the single event (timestamp
100, duration 10), the query with end = 105 returns the event
untrimmed: its end 100 + 10 = 110 extends past the requested end. -/
theorem C3_mongo_returns_unclipped :
    mongoGetEvents (-1) none (some 105) { docs := [⟨1, 100, 10, "x"⟩], nextOid := 2 } =
      [{ id := some 1, timestamp := 100, duration := 10, data := "x" }] ∧
    ((mongoGetEvents (-1) none (some 105) { docs := [⟨1, 100, 10, "x"⟩], nextOid := 2 }).all
        fun ev => decide (ev.timestamp + ev.duration ≤ 105)) = false := by
  decide

/-- C10: on the relational backend, a stored event that satisfies the
spec overlap test but whose timestamp lies more than 24 hours (86400
seconds) before the start bound is excluded by _where_range, hence
absent from both get_eventcount and get_events. -/
theorem C10_24h_prefilter (s : Int) (endtime : Option Int) (r : PRow) (limit : Int)
    (_hov : specOverlaps (some s) endtime r.timestamp r.duration = true)
    (hfar : r.timestamp < s - 86400) :
    peeweeWhereRange (some s) endtime r = false ∧
    peeweeGetEventcount r.bucket (some s) endtime { rows := [r], nextId := r.id + 1 } = 0 ∧
    peeweeGetEvents r.bucket limit (some s) endtime { rows := [r], nextId := r.id + 1 } = [] := by
  have hw : peeweeWhereRange (some s) endtime r = false := by
    unfold peeweeWhereRange
    simp only [Bool.and_eq_false_iff]
    left
    left
    simpa using by omega
  refine ⟨hw, ?_, ?_⟩
  · unfold peeweeGetEventcount
    simp [List.filter, hw]
  · unfold peeweeGetEvents
    split
    · rfl
    · simp [List.filter, hw, sortDescBy]

/-- C10 witness: the event with timestamp 0 and duration 90000 seconds
(25 hours) overlaps the range starting at 90000, yet is excluded. -/
theorem map_update_eq_set {α : Type} (idf : α → Nat) (g : α → α) (l : List α)
    (i : Nat) (hi : i < l.length)
    (hpw : l.Pairwise fun a b => idf a ≠ idf b) :
    (l.map fun r => if idf r == idf (l.get ⟨i, hi⟩) then g r else r) =
      l.set i (g (l.get ⟨i, hi⟩)) := by
  have hpg := List.pairwise_iff_getElem.mp hpw
  apply List.ext_getElem
  · simp
  · intro j hj1 hj2
    have hjl : j < l.length := by simpa using hj1
    simp only [List.getElem_map, List.get_eq_getElem]
    by_cases hji : j = i
    · subst hji
      rw [List.getElem_set_self]
      simp
    · rw [List.getElem_set_ne (by omega)]
      have hne : idf l[j] ≠ idf l[i] := by
        rcases Nat.lt_or_ge j i with hlt | hge
        · exact hpg j i hjl hi hlt
        · have hlt : i < j := by omega
          exact fun he => hpg i j hi hjl hlt he.symm
      simp [hne]

/-- C5: replace_last, on a bucket with at least one event and distinct
event ids, overwrites exactly one event on both backends: an event of
the bucket carrying a maximal timestamp gets the new timestamp,
duration and data while keeping its existing id (List.set at its
position), and every other stored event is untouched. -/
theorem C5_replace_last (bkey : Nat) (ev : Event) (pst : PState) (mst : MState)
    (hpne : (pst.rows.filter fun r => r.bucket == bkey).length ≠ 0)
    (hpids : pst.rows.Pairwise fun a b => a.id ≠ b.id)
    (hmne : mst.docs.length ≠ 0)
    (hmids : mst.docs.Pairwise fun a b => a.oid ≠ b.oid) :
    (∃ (i : Nat) (hi : i < pst.rows.length),
      (pst.rows.get ⟨i, hi⟩).bucket = bkey ∧
      (∀ r ∈ pst.rows, r.bucket = bkey → r.timestamp ≤ (pst.rows.get ⟨i, hi⟩).timestamp) ∧
      peeweeReplaceLast bkey ev pst =
        some ({ pst with rows := pst.rows.set i (overwriteRow ev (pst.rows.get ⟨i, hi⟩)) },
              { ev with id := some (pst.rows.get ⟨i, hi⟩).id })) ∧
    (∃ (i : Nat) (hi : i < mst.docs.length),
      (∀ d ∈ mst.docs, d.timestamp ≤ (mst.docs.get ⟨i, hi⟩).timestamp) ∧
      mongoReplaceLast ev mst =
        some { mst with docs := mst.docs.set i (overwriteDoc ev (mst.docs.get ⟨i, hi⟩)) }) := by
  constructor
  · -- relational backend
    set L := pst.rows.filter fun r => r.bucket == bkey with hL
    obtain ⟨last, hhead⟩ : ∃ last, (sortDescBy (fun r => r.timestamp) L).head? = some last := by
      cases hsl : (sortDescBy (fun r => r.timestamp) L).head? with
      | none =>
          exfalso
          apply hpne
          have := List.head?_eq_none_iff.mp hsl
          have hlen := length_sortDescBy (fun r => r.timestamp) L
          rw [this] at hlen
          simpa using hlen.symm
      | some x => exact ⟨x, rfl⟩
    have hlastL : last ∈ L := mem_of_head?_sortDescBy _ L last hhead
    have hlastRows : last ∈ pst.rows := (List.mem_filter.mp hlastL).1
    have hlastBkt : last.bucket = bkey := by
      have := (List.mem_filter.mp hlastL).2
      simpa using this
    obtain ⟨⟨i, hi⟩, hg⟩ := List.mem_iff_get.mp hlastRows
    refine ⟨i, hi, ?_, ?_, ?_⟩
    · rw [hg]; exact hlastBkt
    · intro r hr hrb
      rw [hg]
      exact key_le_of_head?_sortDescBy _ L last r
        (List.mem_filter.mpr ⟨hr, by simpa using hrb⟩) hhead
    · have hstep : peeweeGetLast bkey pst = some last := by
        unfold peeweeGetLast
        rw [← hL, hhead]
      unfold peeweeReplaceLast
      rw [hstep]
      rw [← hg]
      dsimp only
      rw [map_update_eq_set (fun r => r.id) (overwriteRow ev) pst.rows i hi hpids]
  · -- document store
    obtain ⟨last, hhead⟩ : ∃ last, (sortDescBy (fun d => d.timestamp) mst.docs).head? = some last := by
      cases hsl : (sortDescBy (fun d => d.timestamp) mst.docs).head? with
      | none =>
          exfalso
          apply hmne
          have := List.head?_eq_none_iff.mp hsl
          have hlen := length_sortDescBy (fun d => d.timestamp) mst.docs
          rw [this] at hlen
          simpa using hlen.symm
      | some x => exact ⟨x, rfl⟩
    have hlastDocs : last ∈ mst.docs := mem_of_head?_sortDescBy _ mst.docs last hhead
    obtain ⟨⟨i, hi⟩, hg⟩ := List.mem_iff_get.mp hlastDocs
    refine ⟨i, hi, ?_, ?_⟩
    · intro d hd
      rw [hg]
      exact key_le_of_head?_sortDescBy _ mst.docs last d hd hhead
    · unfold mongoReplaceLast
      rw [hhead]
      rw [← hg]
      dsimp only
      rw [map_update_eq_set (fun d => d.oid) (overwriteDoc ev) mst.docs i hi hmids]

theorem C10_witness :
    peeweeWhereRange (some 90000) none ⟨1, 5, 0, 90000, "w"⟩ = false ∧
    peeweeGetEventcount 5 (some 90000) none
      { rows := [⟨1, 5, 0, 90000, "w"⟩], nextId := 2 } = 0 ∧
    peeweeGetEvents 5 (-1) (some 90000) none
      { rows := [⟨1, 5, 0, 90000, "w"⟩], nextId := 2 } = [] :=
  C10_24h_prefilter 90000 none ⟨1, 5, 0, 90000, "w"⟩ (-1) (by decide) (by decide)


/-! Small list helpers. -/

theorem find?_append_right {α : Type} (p : α → Bool) (l1 l2 : List α)
    (h : ∀ x ∈ l1, p x = false) : List.find? p (l1 ++ l2) = List.find? p l2 := by
  induction l1 with
  | nil => simp
  | cons x xs ih =>
      have hx := h x (by simp)
      simp only [List.cons_append, List.find?, hx]
      exact ih fun y hy => h y (by simp [hy])

theorem map_id_of_fix {α : Type} (f : α → α) (l : List α) (h : ∀ x ∈ l, f x = x) :
    l.map f = l := by
  induction l with
  | nil => rfl
  | cons x xs ih =>
      simp only [List.map_cons, h x (by simp)]
      rw [ih fun y hy => h y (by simp [hy])]

theorem filter_after_filter_not {α : Type} (p : α → Bool) (l : List α) :
    (l.filter fun x => !(p x)).filter p = [] := by
  induction l with
  | nil => rfl
  | cons x xs ih =>
      cases hx : p x with
      | true => simp [List.filter_cons, hx, ih]
      | false => simp [List.filter_cons, hx, ih]

/-- C6: inserting an event without an id via insert_one assigns the next
backend id on either backend, and a subsequent get of that id returns an
event with the same timestamp, duration and data (the freshness
hypotheses say the next id does not collide with a stored row, which the
AutoField and ObjectId generators guarantee). -/
theorem C6_insert_get_round_trip (bkey : Nat) (ev : Event) (pst : PState) (mst : MState)
    (hnoid : ev.id = none)
    (hpfresh : ∀ r ∈ pst.rows, r.id ≠ pst.nextId)
    (hmfresh : ∀ d ∈ mst.docs, d.oid ≠ mst.nextOid) :
    ((peeweeInsertOne bkey ev pst).2.id = some pst.nextId ∧
      peeweeGetEvent bkey pst.nextId (peeweeInsertOne bkey ev pst).1 =
        some { id := some pst.nextId, timestamp := ev.timestamp, duration := ev.duration,
               data := ev.data }) ∧
    ((mongoInsertOne ev mst).2.id = some mst.nextOid ∧
      mongoGetEvent mst.nextOid (mongoInsertOne ev mst).1 =
        some { id := some mst.nextOid, timestamp := ev.timestamp, duration := ev.duration,
               data := ev.data }) := by
  obtain ⟨evid, ts, dur, dat⟩ := ev
  simp only [Event.mk.injEq] at hnoid ⊢
  subst hnoid
  refine ⟨⟨?_, ?_⟩, ⟨?_, ?_⟩⟩
  · simp [peeweeInsertOne]
  · unfold peeweeGetEvent peeweeFindRow peeweeInsertOne
    dsimp only
    rw [find?_append_right _ _ _ ?fresh]
    case fresh =>
      intro r hr
      have : (r.id == pst.nextId) = false := beq_eq_false_iff_ne.mpr (hpfresh r hr)
      simp [this]
    simp [List.find?, rowToEvent]
  · simp [mongoInsertOne]
  · unfold mongoGetEvent mongoInsertOne
    dsimp only
    rw [find?_append_right _ _ _ ?mfresh]
    case mfresh =>
      intro d hd
      exact beq_eq_false_iff_ne.mpr (hmfresh d hd)
    simp [List.find?, docToEvent]

/-- C6 witness: inserting (timestamp 7, duration 3, data "w") into a
one-row relational state and a one-document mongo state and reading the
assigned id back. -/
theorem C6_witness :
    ((peeweeInsertOne 4 { id := none, timestamp := 7, duration := 3, data := "w" }
        { rows := [⟨1, 4, 0, 1, "a"⟩], nextId := 2 }).2.id = some 2 ∧
      peeweeGetEvent 4 2 (peeweeInsertOne 4
          { id := none, timestamp := 7, duration := 3, data := "w" }
          { rows := [⟨1, 4, 0, 1, "a"⟩], nextId := 2 }).1 =
        some { id := some 2, timestamp := 7, duration := 3, data := "w" }) ∧
    ((mongoInsertOne { id := none, timestamp := 7, duration := 3, data := "w" }
        { docs := [⟨1, 0, 1, "a"⟩], nextOid := 2 }).2.id = some 2 ∧
      mongoGetEvent 2 (mongoInsertOne
          { id := none, timestamp := 7, duration := 3, data := "w" }
          { docs := [⟨1, 0, 1, "a"⟩], nextOid := 2 }).1 =
        some { id := some 2, timestamp := 7, duration := 3, data := "w" }) :=
  C6_insert_get_round_trip 4 { id := none, timestamp := 7, duration := 3, data := "w" }
    { rows := [⟨1, 4, 0, 1, "a"⟩], nextId := 2 } { docs := [⟨1, 0, 1, "a"⟩], nextOid := 2 }
    rfl (by decide) (by decide)

/-- C7: counterexample to the claim that replace on an absent event
fails with an EventNotFound error: on the document store, replace of
event id 1 in an empty bucket raises no error at all, reports success
(True) and leaves the collection unchanged. -/
theorem C7_counterexample :
    mongoReplace 1 { id := none, timestamp := 0, duration := 0, data := "p" }
      { docs := [], nextOid := 0 } = ({ docs := [], nextOid := 0 }, true) := by
  decide

/-- C7 (amended): when no event with the given id exists in the bucket,
the relational replace raises (an AttributeError on the missing row,
modelled as none) and writes nothing, the document-store replace
silently succeeds (True) without changing anything, and delete returns
a falsy result (0 rows on the relational backend, False on the document
store) without error on both backends. -/
theorem C7_amended (bkey eid : Nat) (ev : Event) (pst : PState) (mst : MState)
    (hp : ∀ r ∈ pst.rows, ¬(r.id = eid ∧ r.bucket = bkey))
    (hm : ∀ d ∈ mst.docs, d.oid ≠ eid) :
    peeweeReplace bkey eid ev pst = none ∧
    mongoReplace eid ev mst = (mst, true) ∧
    peeweeDelete bkey eid pst = (pst, 0) ∧
    mongoDelete eid mst = (mst, false) := by
  have hpfalse : ∀ r ∈ pst.rows, (r.id == eid && r.bucket == bkey) = false := by
    intro r hr
    have := hp r hr
    rw [Bool.and_eq_false_iff]
    by_cases hid : r.id = eid
    · right
      exact beq_eq_false_iff_ne.mpr fun hb => this ⟨hid, hb⟩
    · left
      exact beq_eq_false_iff_ne.mpr hid
  refine ⟨?_, ?_, ?_, ?_⟩
  · have hfind : peeweeFindRow bkey eid pst = none := by
      unfold peeweeFindRow
      rw [List.find?_eq_none]
      intro r hr
      simp [hpfalse r hr]
    unfold peeweeReplace
    rw [hfind]
  · unfold mongoReplace
    rw [map_id_of_fix _ _ fun d hd => by simp [beq_eq_false_iff_ne.mpr (hm d hd)]]
  · unfold peeweeDelete
    have h1 : (pst.rows.filter fun r => !(r.id == eid && r.bucket == bkey)) = pst.rows := by
      rw [List.filter_eq_self]
      intro r hr
      simp [hpfalse r hr]
    have h2 : (pst.rows.filter fun r => r.id == eid && r.bucket == bkey) = [] := by
      rw [List.filter_eq_nil_iff]
      intro r hr
      simp [hpfalse r hr]
    rw [h1, h2]
    rfl
  · unfold mongoDelete
    have hany : (mst.docs.any fun d => d.oid == eid) = false := by
      rw [List.any_eq_false]
      intro d hd
      simp [beq_eq_false_iff_ne.mpr (hm d hd)]
    rw [hany]
    simp

/-- C7 witness: event id 9 is absent from both one-event states. -/
theorem C7_witness :
    peeweeReplace 3 9 { id := none, timestamp := 1, duration := 1, data := "q" }
      { rows := [⟨1, 3, 0, 1, "a"⟩], nextId := 2 } = none ∧
    mongoReplace 9 { id := none, timestamp := 1, duration := 1, data := "q" }
      { docs := [⟨1, 0, 1, "a"⟩], nextOid := 2 } =
        ({ docs := [⟨1, 0, 1, "a"⟩], nextOid := 2 }, true) ∧
    peeweeDelete 3 9 { rows := [⟨1, 3, 0, 1, "a"⟩], nextId := 2 } =
      ({ rows := [⟨1, 3, 0, 1, "a"⟩], nextId := 2 }, 0) ∧
    mongoDelete 9 { docs := [⟨1, 0, 1, "a"⟩], nextOid := 2 } =
      ({ docs := [⟨1, 0, 1, "a"⟩], nextOid := 2 }, false) :=
  C7_amended 3 9 { id := none, timestamp := 1, duration := 1, data := "q" }
    { rows := [⟨1, 3, 0, 1, "a"⟩], nextId := 2 } { docs := [⟨1, 0, 1, "a"⟩], nextOid := 2 }
    (by decide) (by decide)

/-- C8: saving a user record twice leaves exactly one record under the
saved email, holding the second calls field values (save_user is
delete-by-email then insert on both backends; the relational backend
additionally stamps last_used_at with the time of the call). -/
theorem C8_save_user_last_write_wins (u1 u2 : UserData) (now1 now2 : Int)
    (pst : PUserState) (mst : MUserState) (_hemail : u1.email = u2.email) :
    ((peeweeSaveUser u2 now2 (peeweeSaveUser u1 now1 pst)).users.filter
        fun r => r.email == u2.email) =
      [⟨(peeweeSaveUser u1 now1 pst).nextId, u2.device_id, u2.name, u2.email,
        u2.access_token, u2.refresh_token, some now2⟩] ∧
    ((mongoSaveUser u2 (mongoSaveUser u1 mst)).users.filter
        fun r => r.email == u2.email) =
      [⟨(mongoSaveUser u1 mst).nextOid, u2.device_id, u2.name, u2.email,
        u2.access_token, u2.refresh_token⟩] := by
  constructor
  · conv_lhs => rw [peeweeSaveUser]
    rw [List.filter_append, filter_after_filter_not]
    simp
  · conv_lhs => rw [mongoSaveUser]
    rw [List.filter_append, filter_after_filter_not]
    simp

/-- C8 witness: two concrete saves under the same email. -/
theorem C8_witness :
    ((peeweeSaveUser ⟨"d2", "n2", "e@x", "a2", "r2"⟩ 20
        (peeweeSaveUser ⟨"d1", "n1", "e@x", "a1", "r1"⟩ 10
          { users := [], nextId := 0 })).users.filter
        fun r => r.email == "e@x") =
      [⟨(peeweeSaveUser ⟨"d1", "n1", "e@x", "a1", "r1"⟩ 10
          { users := [], nextId := 0 }).nextId, "d2", "n2", "e@x", "a2", "r2", some 20⟩] ∧
    ((mongoSaveUser ⟨"d2", "n2", "e@x", "a2", "r2"⟩
        (mongoSaveUser ⟨"d1", "n1", "e@x", "a1", "r1"⟩
          { users := [], nextOid := 0 })).users.filter
        fun r => r.email == "e@x") =
      [⟨(mongoSaveUser ⟨"d1", "n1", "e@x", "a1", "r1"⟩
          { users := [], nextOid := 0 }).nextOid, "d2", "n2", "e@x", "a2", "r2"⟩] :=
  C8_save_user_last_write_wins ⟨"d1", "n1", "e@x", "a1", "r1"⟩ ⟨"d2", "n2", "e@x", "a2", "r2"⟩
    10 20 { users := [], nextId := 0 } { users := [], nextOid := 0 } rfl

/-- C9: counterexample to the claim that a fresh cache snapshot is
returned unchanged by the bucket list operation: the relational
backends buckets() ignores its cache fields entirely (the caching code
is commented out), so with a cached snapshot recorded at the current
instant it still returns the re-enumerated backend state, not the
snapshot. -/
theorem C9_counterexample :
    (peeweeBuckets []
        { cached_buckets := some [("a", ⟨"n", "t", "c", "h", "cr"⟩)],
          last_cached_ms := 100 }).1 ≠ [("a", ⟨"n", "t", "c", "h", "cr"⟩)] := by
  decide

/-- C9 (amended): on the document store, buckets() returns the cached
snapshot unchanged (even if it is still None) whenever the elapsed time
since last_cached_ms is below the 6000 window, and otherwise
re-enumerates from the backend, stores the new map and resets
last_cached_ms to the current time; on the relational backend the cache
is disabled and every call re-enumerates, leaving the cache fields
untouched. -/
theorem C9_amended (now1 now2 : Int) (backend : List (String × BucketMeta))
    (mc : MongoCache) (pc : PeeweeCache)
    (h1 : now1 - mc.last_cached_ms < 6000)
    (h2 : ¬ now2 - mc.last_cached_ms < 6000) :
    mongoBuckets now1 backend mc = (mc.cached_buckets, mc) ∧
    mongoBuckets now2 backend mc =
      (some backend, { cached_buckets := some backend, last_cached_ms := now2 }) ∧
    peeweeBuckets backend pc = (backend, pc) := by
  refine ⟨?_, ?_, rfl⟩
  · simp [mongoBuckets, h1]
  · simp [mongoBuckets, h2]

/-- C9 witness: at time 100 the cache recorded at time 0 is fresh; at
time 7000 it is stale and the backend map is re-enumerated. -/
theorem C9_witness :
    mongoBuckets 100 [("b", ⟨"n", "t", "c", "h", "cr"⟩)]
      { cached_buckets := none, last_cached_ms := 0 } =
      (none, { cached_buckets := none, last_cached_ms := 0 }) ∧
    mongoBuckets 7000 [("b", ⟨"n", "t", "c", "h", "cr"⟩)]
      { cached_buckets := none, last_cached_ms := 0 } =
      (some [("b", ⟨"n", "t", "c", "h", "cr"⟩)],
       { cached_buckets := some [("b", ⟨"n", "t", "c", "h", "cr"⟩)], last_cached_ms := 7000 }) ∧
    peeweeBuckets [("b", ⟨"n", "t", "c", "h", "cr"⟩)]
      { cached_buckets := none, last_cached_ms := 0 } =
      ([("b", ⟨"n", "t", "c", "h", "cr"⟩)],
       { cached_buckets := none, last_cached_ms := 0 }) :=
  C9_amended 100 7000 [("b", ⟨"n", "t", "c", "h", "cr"⟩)]
    { cached_buckets := none, last_cached_ms := 0 }
    { cached_buckets := none, last_cached_ms := 0 } (by decide) (by decide)


/-! Counting lemmas for insert_many (C4). -/

theorem peeweeWhereRange_none_none (r : PRow) : peeweeWhereRange none none r = true := rfl

theorem length_filter_map_congr {α : Type} (p : α → Bool) (f : α → α) (l : List α)
    (h : ∀ r ∈ l, p (f r) = p r) :
    ((l.map f).filter p).length = (l.filter p).length := by
  induction l with
  | nil => rfl
  | cons x xs ih =>
      simp only [List.map_cons, List.filter_cons, h x (by simp)]
      cases hp : p x <;> simp [hp, ih fun r hr => h r (by simp [hr])]

theorem count_updates_fold (bkey : Nat) (evs : List Event) (st : PState)
    (hsome : ∀ e ∈ evs, e.id.isSome)
    (href : ∀ r ∈ st.rows, (∃ e ∈ evs, e.id = some r.id) → r.bucket = bkey) :
    peeweeGetEventcount bkey none none
        (evs.foldl (fun s e => (peeweeInsertOne bkey e s).1) st) =
      peeweeGetEventcount bkey none none st := by
  induction evs generalizing st with
  | nil => rfl
  | cons e0 rest ih =>
      obtain ⟨i, hi⟩ : ∃ i, e0.id = some i :=
        Option.isSome_iff_exists.mp (hsome e0 (by simp))
      simp only [List.foldl_cons]
      have hstep : peeweeGetEventcount bkey none none (peeweeInsertOne bkey e0 st).1 =
          peeweeGetEventcount bkey none none st := by
        unfold peeweeInsertOne
        rw [hi]
        unfold peeweeGetEventcount
        dsimp only
        apply length_filter_map_congr
        intro r hr
        by_cases hid : r.id = i
        · have hbkt : r.bucket = bkey := href r hr ⟨e0, by simp, by rw [hi, hid]⟩
          simp [hid, hbkt, peeweeWhereRange_none_none]
        · simp [beq_eq_false_iff_ne.mpr hid]
      have hrefs : ∀ r1 ∈ (peeweeInsertOne bkey e0 st).1.rows,
          (∃ e ∈ rest, e.id = some r1.id) → r1.bucket = bkey := by
        unfold peeweeInsertOne
        rw [hi]
        dsimp only
        intro r1 hr1 hex
        obtain ⟨r, hr, hfr⟩ := List.mem_map.mp hr1
        by_cases hid : r.id = i
        · rw [← hfr]
          simp [hid]
        · rw [beq_eq_false_iff_ne.mpr hid] at hfr
          simp at hfr
          rw [← hfr] at hex ⊢
          obtain ⟨e, he, heid⟩ := hex
          exact href r hr ⟨e, by simp [he], heid⟩
      rw [ih _ (fun e he => hsome e (by simp [he])) hrefs, hstep]

theorem count_insertChunk (bkey : Nat) (chunk : List Event) (st : PState) :
    peeweeGetEventcount bkey none none (peeweeInsertChunk bkey chunk st) =
      peeweeGetEventcount bkey none none st + chunk.length := by
  induction chunk generalizing st with
  | nil => rfl
  | cons e rest ih =>
      simp only [peeweeInsertChunk, List.foldl_cons] at ih ⊢
      rw [ih]
      have happ : peeweeGetEventcount bkey none none
          { rows := st.rows ++ [⟨st.nextId, bkey, e.timestamp, e.duration, e.data⟩],
            nextId := st.nextId + 1 } = peeweeGetEventcount bkey none none st + 1 := by
        unfold peeweeGetEventcount
        rw [List.filter_append]
        simp [peeweeWhereRange_none_none]
      rw [happ]
      simp only [List.length_cons]
      omega

theorem count_chunksFold (bkey : Nat) (l : List Event) (st : PState) :
    peeweeGetEventcount bkey none none
        ((chunks 100 l).foldl (fun s c => peeweeInsertChunk bkey c s) st) =
      peeweeGetEventcount bkey none none st + l.length := by
  have main : ∀ (fuel : Nat) (l : List Event) (st : PState), l.length ≤ fuel →
      peeweeGetEventcount bkey none none
          ((chunks 100 l).foldl (fun s c => peeweeInsertChunk bkey c s) st) =
        peeweeGetEventcount bkey none none st + l.length := by
    intro fuel
    induction fuel with
    | zero =>
        intro l st hl
        have hnil : l = [] := List.length_eq_zero.mp (Nat.le_zero.mp hl)
        subst hnil
        rw [chunks]
        simp
    | succ n ih =>
        intro l st hl
        by_cases hne : 0 < l.length
        · rw [chunks]
          rw [dif_pos ⟨by omega, hne⟩]
          simp only [List.foldl_cons]
          rw [ih (l.drop 100) _ (by simp only [List.length_drop]; omega)]
          rw [count_insertChunk]
          have h1 := List.length_take 100 l
          have h2 := List.length_drop 100 l
          omega
        · have hnil : l = [] := by
            cases hll : l
            · rfl
            · rw [hll] at hne
              simp at hne
          subst hnil
          rw [chunks]
          simp
  exact main l.length l st le_rfl

theorem mongo_count_insertMany (events : List Event) (st : MState) :
    mongoGetEventcount none none (mongoInsertMany events st) =
      mongoGetEventcount none none st + events.length := by
  induction events generalizing st with
  | nil => rfl
  | cons e rest ih =>
      simp only [mongoInsertMany, List.foldl_cons] at ih ⊢
      rw [ih]
      have happ : mongoGetEventcount none none
          { docs := st.docs ++ [⟨st.nextOid, e.timestamp, e.duration, e.data⟩],
            nextOid := st.nextOid + 1 } = mongoGetEventcount none none st + 1 := by
        unfold mongoGetEventcount
        rw [List.filter_append]
        simp [mongoQueryFilter]
      rw [happ]
      simp only [List.length_cons]
      omega

/-- C4: counterexample to the claim that insert_many leaves the event
count at (existing count) + (events without an id): on the document
store, insert_many of a single event that carries an id inserts it as a
new document, so the count grows by 1 although no event lacks an id. -/
theorem C4_counterexample :
    mongoGetEventcount none none
        (mongoInsertMany [{ id := some 7, timestamp := 0, duration := 1, data := "c" }]
          { docs := [], nextOid := 0 }) = 1 ∧
    (([{ id := some 7, timestamp := 0, duration := 1, data := "c" }] : List Event).filter
        fun e => e.id.isNone).length = 0 := by
  decide

/-- C4 (amended): on the relational backend the claim holds: events
that carry an id go one by one through the update path of insert_one
and events without an id are bulk-inserted in chunks of 100, so the
bucket count grows by exactly the number of events without an id
(provided every id carried by the batch refers, if at all, to a row of
that same bucket); on the document store, insert_many inserts every
event as a new document regardless of id, so the count grows by the
total number of events. -/
theorem C4_amended (bkey : Nat) (events : List Event) (pst : PState) (mst : MState)
    (href : ∀ r ∈ pst.rows, (∃ e ∈ events, e.id = some r.id) → r.bucket = bkey) :
    peeweeGetEventcount bkey none none (peeweeInsertMany bkey events pst) =
      peeweeGetEventcount bkey none none pst +
        (events.filter fun e => e.id.isNone).length ∧
    mongoGetEventcount none none (mongoInsertMany events mst) =
      mongoGetEventcount none none mst + events.length := by
  refine ⟨?_, mongo_count_insertMany events mst⟩
  unfold peeweeInsertMany
  rw [count_chunksFold]
  rw [count_updates_fold bkey _ pst
    (fun e he => (List.mem_filter.mp he).2)
    (fun r hr hex => href r hr (by
      obtain ⟨e, he, heid⟩ := hex
      exact ⟨e, (List.mem_filter.mp he).1, heid⟩))]

/-- C4 witness: a batch holding one event with id 1 (already stored in
bucket 1) and one event without an id grows the bucket count by exactly
one on the relational backend, while the same batch grows the document
count by two on the document store. -/
theorem C4_witness :
    peeweeGetEventcount 1 none none
        (peeweeInsertMany 1
          [{ id := some 1, timestamp := 5, duration := 1, data := "u" },
           { id := none, timestamp := 9, duration := 2, data := "v" }]
          { rows := [⟨1, 1, 0, 1, "a"⟩], nextId := 2 }) =
      peeweeGetEventcount 1 none none { rows := [⟨1, 1, 0, 1, "a"⟩], nextId := 2 } +
        (([{ id := some 1, timestamp := 5, duration := 1, data := "u" },
            { id := none, timestamp := 9, duration := 2, data := "v" }] : List Event).filter
          fun e => e.id.isNone).length ∧
    mongoGetEventcount none none
        (mongoInsertMany
          [{ id := some 1, timestamp := 5, duration := 1, data := "u" },
           { id := none, timestamp := 9, duration := 2, data := "v" }]
          { docs := [], nextOid := 0 }) =
      mongoGetEventcount none none { docs := [], nextOid := 0 } +
        ([{ id := some 1, timestamp := 5, duration := 1, data := "u" },
          { id := none, timestamp := 9, duration := 2, data := "v" }] : List Event).length :=
  C4_amended 1
    [{ id := some 1, timestamp := 5, duration := 1, data := "u" },
     { id := none, timestamp := 9, duration := 2, data := "v" }]
    { rows := [⟨1, 1, 0, 1, "a"⟩], nextId := 2 } { docs := [], nextOid := 0 }
    (by decide)


/-- C5 witness: a bucket-5 table with rows at timestamps 10 and 50 and
a two-document mongo collection; replace_last overwrites the row with
timestamp 50 in each, keeping id 2. -/
theorem C5_witness :
    (∃ (i : Nat) (hi : i < ([⟨1, 5, 10, 2, "a"⟩, ⟨2, 5, 50, 3, "b"⟩] : List PRow).length),
      (([⟨1, 5, 10, 2, "a"⟩, ⟨2, 5, 50, 3, "b"⟩] : List PRow).get ⟨i, hi⟩).bucket = 5 ∧
      (∀ r ∈ ([⟨1, 5, 10, 2, "a"⟩, ⟨2, 5, 50, 3, "b"⟩] : List PRow), r.bucket = 5 →
        r.timestamp ≤
          (([⟨1, 5, 10, 2, "a"⟩, ⟨2, 5, 50, 3, "b"⟩] : List PRow).get ⟨i, hi⟩).timestamp) ∧
      peeweeReplaceLast 5 { id := none, timestamp := 60, duration := 4, data := "z" }
          { rows := [⟨1, 5, 10, 2, "a"⟩, ⟨2, 5, 50, 3, "b"⟩], nextId := 3 } =
        some ({ rows := ([⟨1, 5, 10, 2, "a"⟩, ⟨2, 5, 50, 3, "b"⟩] : List PRow).set i
                  (overwriteRow { id := none, timestamp := 60, duration := 4, data := "z" }
                    (([⟨1, 5, 10, 2, "a"⟩, ⟨2, 5, 50, 3, "b"⟩] : List PRow).get ⟨i, hi⟩)),
                nextId := 3 },
              { id := some ((([⟨1, 5, 10, 2, "a"⟩, ⟨2, 5, 50, 3, "b"⟩] : List PRow).get
                  ⟨i, hi⟩).id),
                timestamp := 60, duration := 4, data := "z" })) ∧
    (∃ (i : Nat) (hi : i < ([⟨1, 10, 2, "a"⟩, ⟨2, 50, 3, "b"⟩] : List MDoc).length),
      (∀ d ∈ ([⟨1, 10, 2, "a"⟩, ⟨2, 50, 3, "b"⟩] : List MDoc),
        d.timestamp ≤
          (([⟨1, 10, 2, "a"⟩, ⟨2, 50, 3, "b"⟩] : List MDoc).get ⟨i, hi⟩).timestamp) ∧
      mongoReplaceLast { id := none, timestamp := 60, duration := 4, data := "z" }
          { docs := [⟨1, 10, 2, "a"⟩, ⟨2, 50, 3, "b"⟩], nextOid := 3 } =
        some { docs := ([⟨1, 10, 2, "a"⟩, ⟨2, 50, 3, "b"⟩] : List MDoc).set i
                 (overwriteDoc { id := none, timestamp := 60, duration := 4, data := "z" }
                   (([⟨1, 10, 2, "a"⟩, ⟨2, 50, 3, "b"⟩] : List MDoc).get ⟨i, hi⟩)),
               nextOid := 3 }) :=
  C5_replace_last 5 { id := none, timestamp := 60, duration := 4, data := "z" }
    { rows := [⟨1, 5, 10, 2, "a"⟩, ⟨2, 5, 50, 3, "b"⟩], nextId := 3 }
    { docs := [⟨1, 10, 2, "a"⟩, ⟨2, 50, 3, "b"⟩], nextOid := 3 }
    (by decide) (by decide) (by decide) (by decide)

end AwCore
